import Mathlib

/-!
Verification development for the reference-wallet presentation layer.

The definitions below are shallow embeddings of the TypeScript sources:
  - frontend/src/pages/FundsPullPreApprovals.tsx (approval polling and bucket
    classification),
  - frontend/src/pages/Home.tsx (transactions polling, page gating, redirects),
  - the UserProvider context (loadUser: concurrent user/payment-method refresh,
    401 handling),
  - the TotalBalance components (total fiat balance computation).
Asynchronous control flow is embedded as explicit step functions over event
traces: the single-threaded JS event loop interleaves timer callbacks and
network completions, so each async function is split at its await points.
-/

namespace Wallet

/-- Scope of a funds-pull pre-approval.  The `Approval` interface file is not
included in the sources; the fields are reconstructed from the accesses in
FundsPullPreApprovals.tsx (`approval.scope.expiration_timestamp`, a Unix
timestamp in seconds). -/
structure ApprovalScope where
  expiration_timestamp : Int
deriving DecidableEq, Repr

/-- A funds-pull pre-approval, with the fields the included sources access:
`funds_pull_pre_approval_id` and `biller_name` (ApproveModal.tsx), `status`
(compared against the string literals "pending" and "valid") and `scope`. -/
structure Approval where
  funds_pull_pre_approval_id : String
  biller_name : String
  status : String
  scope : ApprovalScope
deriving DecidableEq, Repr

/-- The three UI buckets built by the classification loop in
FundsPullPreApprovals.tsx (lines 39-41: `newApprovals`, `activeApprovals`,
`historyApprovals`). -/
structure ApprovalBuckets where
  newApprovals : List Approval
  activeApprovals : List Approval
  historyApprovals : List Approval
deriving DecidableEq, Repr

/-- Names for the three buckets, used to state which bucket a single approval
is routed to. -/
inductive Bucket
  | new
  | active
  | history
deriving DecidableEq, Repr

/-- One iteration of the classification loop (FundsPullPreApprovals.tsx lines
43-57).  `now` is the current wall-clock time in milliseconds: the code builds
`new Date(approval.scope.expiration_timestamp * 1000)` and compares it with
`new Date()` using `<`, which compares millisecond epoch values.  (The code
samples `new Date()` afresh for each valid approval; the model passes the
sampled time as a parameter.) -/
def classifyStep (now : Int) (b : ApprovalBuckets) (approval : Approval) : ApprovalBuckets :=
  if approval.status = "pending" then
    { b with newApprovals := b.newApprovals ++ [approval] }
  else if approval.status = "valid" then
    if approval.scope.expiration_timestamp * 1000 < now then
      { b with historyApprovals := b.historyApprovals ++ [approval] }
    else
      { b with activeApprovals := b.activeApprovals ++ [approval] }
  else
    { b with historyApprovals := b.historyApprovals ++ [approval] }

/-- The whole classification loop: a `for ... of` fold over the fetched list,
starting from three empty buckets. -/
def classifyApprovals (now : Int) (approvals : List Approval) : ApprovalBuckets :=
  approvals.foldl (classifyStep now) ⟨[], [], []⟩

/-- The bucket a single approval is routed to by the loop body. -/
def bucketOf (now : Int) (a : Approval) : Bucket :=
  if a.status = "pending" then Bucket.new
  else if a.status = "valid" then
    if a.scope.expiration_timestamp * 1000 < now then Bucket.history
    else Bucket.active
  else Bucket.history

theorem classifyStep_bucketOf (now : Int) (b : ApprovalBuckets) (a : Approval) :
    classifyStep now b a =
      match bucketOf now a with
      | Bucket.new => { b with newApprovals := b.newApprovals ++ [a] }
      | Bucket.active => { b with activeApprovals := b.activeApprovals ++ [a] }
      | Bucket.history => { b with historyApprovals := b.historyApprovals ++ [a] } := by
  by_cases h1 : a.status = "pending" <;>
    by_cases h2 : a.status = "valid" <;>
      by_cases h3 : a.scope.expiration_timestamp * 1000 < now <;>
        simp [classifyStep, bucketOf, h1, h2, h3]

theorem classify_foldl (now : Int) (l : List Approval) (b : ApprovalBuckets) :
    List.foldl (classifyStep now) b l =
      { newApprovals := b.newApprovals ++ l.filter (fun a => bucketOf now a == Bucket.new),
        activeApprovals := b.activeApprovals ++ l.filter (fun a => bucketOf now a == Bucket.active),
        historyApprovals :=
          b.historyApprovals ++ l.filter (fun a => bucketOf now a == Bucket.history) } := by
  induction l generalizing b with
  | nil => simp
  | cons a t ih =>
    rw [List.foldl_cons, classifyStep_bucketOf]
    cases hb : bucketOf now a <;>
      simp [ih, List.filter_cons, hb, List.append_assoc]

theorem classifyApprovals_eq (now : Int) (l : List Approval) :
    classifyApprovals now l =
      { newApprovals := l.filter (fun a => bucketOf now a == Bucket.new),
        activeApprovals := l.filter (fun a => bucketOf now a == Bucket.active),
        historyApprovals := l.filter (fun a => bucketOf now a == Bucket.history) } := by
  simpa [classifyApprovals] using classify_foldl now l ⟨[], [], []⟩

theorem filter_buckets_length (now : Int) (l : List Approval) :
    (l.filter (fun a => bucketOf now a == Bucket.new)).length
      + (l.filter (fun a => bucketOf now a == Bucket.active)).length
      + (l.filter (fun a => bucketOf now a == Bucket.history)).length = l.length := by
  induction l with
  | nil => rfl
  | cons a t ih =>
    cases hb : bucketOf now a <;> simp [List.filter_cons, hb] <;> omega

/-- Claim C1: for every list of approvals, the classification into 'new',
'active' and 'history' is a total, disjoint, order-preserving partition:
each bucket is a sublist of the input (relative order kept), the bucket
lengths sum to the input length, every approval of the input appears in some
bucket, and no approval appears in two buckets. -/
theorem approvals_classification_partition (now : Int) (l : List Approval) :
    ((classifyApprovals now l).newApprovals.Sublist l
      ∧ (classifyApprovals now l).activeApprovals.Sublist l
      ∧ (classifyApprovals now l).historyApprovals.Sublist l)
    ∧ ((classifyApprovals now l).newApprovals.length
        + (classifyApprovals now l).activeApprovals.length
        + (classifyApprovals now l).historyApprovals.length = l.length)
    ∧ (∀ a, a ∈ l →
        a ∈ (classifyApprovals now l).newApprovals
          ∨ a ∈ (classifyApprovals now l).activeApprovals
          ∨ a ∈ (classifyApprovals now l).historyApprovals)
    ∧ (∀ a, ¬ (a ∈ (classifyApprovals now l).newApprovals
        ∧ a ∈ (classifyApprovals now l).activeApprovals))
    ∧ (∀ a, ¬ (a ∈ (classifyApprovals now l).newApprovals
        ∧ a ∈ (classifyApprovals now l).historyApprovals))
    ∧ (∀ a, ¬ (a ∈ (classifyApprovals now l).activeApprovals
        ∧ a ∈ (classifyApprovals now l).historyApprovals)) := by
  rw [classifyApprovals_eq]
  refine ⟨⟨List.filter_sublist l, List.filter_sublist l, List.filter_sublist l⟩,
    filter_buckets_length now l, ?_, ?_, ?_, ?_⟩
  · intro a hal
    cases hb : bucketOf now a
    · exact Or.inl (List.mem_filter.mpr ⟨hal, by simp [hb]⟩)
    · exact Or.inr (Or.inl (List.mem_filter.mpr ⟨hal, by simp [hb]⟩))
    · exact Or.inr (Or.inr (List.mem_filter.mpr ⟨hal, by simp [hb]⟩))
  · rintro a ⟨h1, h2⟩
    have e1 := (List.mem_filter.mp h1).2
    have e2 := (List.mem_filter.mp h2).2
    simp only [beq_iff_eq] at e1 e2
    rw [e1] at e2
    exact Bucket.noConfusion e2
  · rintro a ⟨h1, h2⟩
    have e1 := (List.mem_filter.mp h1).2
    have e2 := (List.mem_filter.mp h2).2
    simp only [beq_iff_eq] at e1 e2
    rw [e1] at e2
    exact Bucket.noConfusion e2
  · rintro a ⟨h1, h2⟩
    have e1 := (List.mem_filter.mp h1).2
    have e2 := (List.mem_filter.mp h2).2
    simp only [beq_iff_eq] at e1 e2
    rw [e1] at e2
    exact Bucket.noConfusion e2

/-- A sample pending approval used to instantiate the classification
theorems. -/
def pendingApprovalEx : Approval :=
  { funds_pull_pre_approval_id := "fppa-1", biller_name := "Biller A",
    status := "pending", scope := { expiration_timestamp := 100 } }

/-- A sample valid approval whose scope expires at Unix time 100 s. -/
def validApprovalEx : Approval :=
  { funds_pull_pre_approval_id := "fppa-2", biller_name := "Biller B",
    status := "valid", scope := { expiration_timestamp := 100 } }

/-- Witness for C1: the partition theorem applied to a concrete list places
the sample approval in one of the three buckets. -/
theorem approvals_classification_partition_witness :
    pendingApprovalEx ∈ (classifyApprovals 0 [pendingApprovalEx]).newApprovals
      ∨ pendingApprovalEx ∈ (classifyApprovals 0 [pendingApprovalEx]).activeApprovals
      ∨ pendingApprovalEx ∈ (classifyApprovals 0 [pendingApprovalEx]).historyApprovals :=
  (approvals_classification_partition 0 [pendingApprovalEx]).2.2.1 pendingApprovalEx
    (by simp)

/-- Claim C2: a "valid" approval whose expiration lies strictly in the past
goes to 'history' and never to 'active'; a "pending" approval goes to 'new';
a "valid" approval with expiration in the future goes to 'active'; every
approval with any other status goes to 'history'. -/
theorem approvals_bucket_rules (now : Int) (l : List Approval) (a : Approval) (ha : a ∈ l) :
    (a.status = "valid" → a.scope.expiration_timestamp * 1000 < now →
        a ∈ (classifyApprovals now l).historyApprovals
          ∧ a ∉ (classifyApprovals now l).activeApprovals)
    ∧ (a.status = "pending" → a ∈ (classifyApprovals now l).newApprovals)
    ∧ (a.status = "valid" → now < a.scope.expiration_timestamp * 1000 →
        a ∈ (classifyApprovals now l).activeApprovals)
    ∧ (a.status ≠ "pending" → a.status ≠ "valid" →
        a ∈ (classifyApprovals now l).historyApprovals) := by
  rw [classifyApprovals_eq]
  refine ⟨?_, ?_, ?_, ?_⟩
  · intro hv hexp
    constructor
    · exact List.mem_filter.mpr ⟨ha, by simp [bucketOf, hv, hexp]⟩
    · intro hmem
      have := (List.mem_filter.mp hmem).2
      simp [bucketOf, hv, hexp] at this
  · intro hp
    exact List.mem_filter.mpr ⟨ha, by simp [bucketOf, hp]⟩
  · intro hv hfut
    have hnot : ¬ (a.scope.expiration_timestamp * 1000 < now) := by omega
    exact List.mem_filter.mpr ⟨ha, by simp [bucketOf, hv, hnot]⟩
  · intro hnp hnv
    exact List.mem_filter.mpr ⟨ha, by simp [bucketOf, hnp, hnv]⟩

/-- Witness for C2: a concrete valid approval whose expiry (100 s, that is
100000 ms) is before the sampled time 200000 ms lands in 'history' and not in
'active'. -/
theorem approvals_bucket_rules_witness :
    validApprovalEx ∈ (classifyApprovals 200000 [validApprovalEx]).historyApprovals
      ∧ validApprovalEx ∉ (classifyApprovals 200000 [validApprovalEx]).activeApprovals :=
  (approvals_bucket_rules 200000 [validApprovalEx] validApprovalEx (by simp)).1
    rfl (by decide)

/-- Claim C10: boundary behaviour — a "valid" approval whose expiration
instant equals the current time exactly is classified as 'active', not
'history': the expiry comparison in the code is strict. -/
theorem approvals_boundary_exact_expiry (now : Int) (l : List Approval) (a : Approval)
    (ha : a ∈ l) (hs : a.status = "valid")
    (he : a.scope.expiration_timestamp * 1000 = now) :
    a ∈ (classifyApprovals now l).activeApprovals
      ∧ a ∉ (classifyApprovals now l).historyApprovals := by
  rw [classifyApprovals_eq]
  have hnot : ¬ (a.scope.expiration_timestamp * 1000 < now) := by omega
  constructor
  · exact List.mem_filter.mpr ⟨ha, by simp [bucketOf, hs, hnot]⟩
  · intro hmem
    have := (List.mem_filter.mp hmem).2
    simp [bucketOf, hs, hnot] at this

/-- Witness for C10: the sample valid approval expiring exactly at the
sampled time 100000 ms is active, not history. -/
theorem approvals_boundary_exact_expiry_witness :
    validApprovalEx ∈ (classifyApprovals 100000 [validApprovalEx]).activeApprovals
      ∧ validApprovalEx ∉ (classifyApprovals 100000 [validApprovalEx]).historyApprovals :=
  approvals_boundary_exact_expiry 100000 [validApprovalEx] validApprovalEx
    (by simp) rfl (by decide)

/-- Typed error raised by the backend client on non-2xx responses
(services/errors.ts, consumed via `e instanceof BackendError` checks). -/
structure BackendError where
  httpStatus : Nat
  message : String
deriving DecidableEq, Repr

/-- An exception caught by one of the fetch paths: either a typed
`BackendError` or any other thrown value (`e instanceof BackendError` is
false). -/
inductive FetchErr
  | backend (e : BackendError)
  | other
deriving DecidableEq, Repr

/-- State of the approvals polling feed of FundsPullPreApprovals.tsx for one
mount cycle.  `refreshApprovals` is the closure variable captured by the
effect (line 17), flipped by the cleanup (lines 34-36).  The counters record
the observable side effects: `setApprovals` calls (publishes), `setTimeout`
calls (timersScheduled) and `console.error` calls (errorsLogged), each with
an after-unmount tally.  `sessionToken` and `navigatedTo` model session
storage and the navigation target; this component never touches either. -/
structure ApprovalsFeedState where
  refreshApprovals : Bool
  unmounted : Bool
  inFlight : Bool
  approvals : List Approval
  publishes : Nat
  publishesAfterUnmount : Nat
  timersScheduled : Nat
  timersAfterUnmount : Nat
  errorsLogged : Nat
  sessionToken : Option String
  navigatedTo : Option String
deriving DecidableEq, Repr

/-- Events of the approvals feed, as the JS event loop delivers them:
`tick` is an invocation of `fetchApprovals` (the initial call or a timer
firing); `resolve` is the settlement of the in-flight
`getAllFundsPullPreApprovals()` promise; `unmount` runs the effect cleanup. -/
inductive ApprovalsFeedEv
  | tick
  | resolve (res : Except FetchErr (List Approval))
  | unmount
deriving Repr

/-- One event of the approvals feed (FundsPullPreApprovals.tsx lines 19-37).
On `tick`, the guard `if (refreshApprovals)` is evaluated BEFORE the fetch:
if true the fetch starts (the function suspends at the await); if false the
if-body is skipped but `setTimeout(fetchApprovals, ...)` — which sits after
the if, inside the try — still runs.  On `resolve` of a successful fetch,
`setApprovals` runs and then `setTimeout` reschedules; the guard is NOT
re-checked after the await.  On `resolve` of a failed fetch, the await
throws: control jumps to the catch, which only logs — the `setTimeout` after
the if is never reached.  `unmount` flips the closure flag. -/
def approvalsFeedStep (s : ApprovalsFeedState) (e : ApprovalsFeedEv) : ApprovalsFeedState :=
  match e with
  | ApprovalsFeedEv.tick =>
    if s.refreshApprovals then
      { s with inFlight := true }
    else
      { s with timersScheduled := s.timersScheduled + 1,
               timersAfterUnmount := s.timersAfterUnmount + (if s.unmounted then 1 else 0) }
  | ApprovalsFeedEv.resolve res =>
    if s.inFlight then
      match res with
      | Except.ok data =>
        { s with inFlight := false,
                 approvals := data,
                 publishes := s.publishes + 1,
                 publishesAfterUnmount :=
                   s.publishesAfterUnmount + (if s.unmounted then 1 else 0),
                 timersScheduled := s.timersScheduled + 1,
                 timersAfterUnmount :=
                   s.timersAfterUnmount + (if s.unmounted then 1 else 0) }
      | Except.error _ =>
        { s with inFlight := false, errorsLogged := s.errorsLogged + 1 }
    else s
  | ApprovalsFeedEv.unmount =>
    { s with refreshApprovals := false, unmounted := true }

/-- Feed state right after mount: flag true, nothing in flight, no side
effects yet. -/
def approvalsFeedInit (token : Option String) : ApprovalsFeedState :=
  { refreshApprovals := true, unmounted := false, inFlight := false, approvals := [],
    publishes := 0, publishesAfterUnmount := 0, timersScheduled := 0,
    timersAfterUnmount := 0, errorsLogged := 0, sessionToken := token,
    navigatedTo := none }

/-- Run the approvals feed over a trace of events. -/
def runApprovalsFeed (token : Option String) (evs : List ApprovalsFeedEv) : ApprovalsFeedState :=
  evs.foldl approvalsFeedStep (approvalsFeedInit token)

/-- Modelled from the spec: the `Transaction` interface file is not included
in the sources; the spec lists sender, receiver, amount, currency, status and
timestamp.  The transactions feed treats the records as an opaque payload. -/
structure Transaction where
  sender : String
  receiver : String
  amount : Int
  currency : String
  status : String
  timestamp : Int
deriving DecidableEq, Repr

/-- State of the transactions polling feed of Home.tsx (lines 126-148),
mirroring `ApprovalsFeedState`. -/
structure TransactionsFeedState where
  refreshTransactions : Bool
  unmounted : Bool
  inFlight : Bool
  transactions : List Transaction
  publishes : Nat
  publishesAfterUnmount : Nat
  timersScheduled : Nat
  timersAfterUnmount : Nat
  errorsLogged : Nat
deriving DecidableEq, Repr

/-- Events of the transactions feed. -/
inductive TransactionsFeedEv
  | tick
  | resolve (res : Except FetchErr (List Transaction))
  | unmount
deriving Repr

/-- One event of the transactions feed (Home.tsx `fetchTransactions`).  The
control flow differs from the approvals feed in one place: here BOTH the
`setTransactions` call and the `setTimeout` sit inside the
`if (refreshTransactions)` body, so a tick that finds the flag false does
nothing at all.  The guard is still evaluated before the await, so a fetch
already in flight at unmount still publishes and reschedules once. -/
def transactionsFeedStep (s : TransactionsFeedState) (e : TransactionsFeedEv) :
    TransactionsFeedState :=
  match e with
  | TransactionsFeedEv.tick =>
    if s.refreshTransactions then { s with inFlight := true } else s
  | TransactionsFeedEv.resolve res =>
    if s.inFlight then
      match res with
      | Except.ok data =>
        { s with inFlight := false,
                 transactions := data,
                 publishes := s.publishes + 1,
                 publishesAfterUnmount :=
                   s.publishesAfterUnmount + (if s.unmounted then 1 else 0),
                 timersScheduled := s.timersScheduled + 1,
                 timersAfterUnmount :=
                   s.timersAfterUnmount + (if s.unmounted then 1 else 0) }
      | Except.error _ =>
        { s with inFlight := false, errorsLogged := s.errorsLogged + 1 }
    else s
  | TransactionsFeedEv.unmount =>
    { s with refreshTransactions := false, unmounted := true }

/-- A payment method, with the fields the included sources access
(DepositReview: `id`, `name`, `provider`). -/
structure PaymentMethod where
  id : Nat
  name : String
  provider : String
deriving DecidableEq, Repr

/-- A user profile, with the fields the included sources access: name parts
and `is_admin` (Home.tsx), `registration_status` (compared against string
enum values), and the separately fetched `paymentMethods` the UserProvider
attaches. -/
structure User where
  first_name : String
  last_name : String
  registration_status : String
  is_admin : Bool
  paymentMethods : List PaymentMethod
deriving DecidableEq, Repr

/-- State owned by the UserProvider context: the published user (`setUser`),
the session token (SessionStorage), the navigation root (`setStackRoot`), and
counters for `setTimeout` and `console.error` calls. -/
structure UserProviderState where
  user : Option User
  sessionToken : Option String
  navigatedTo : Option String
  timersScheduled : Nat
  errorsLogged : Nat
deriving DecidableEq, Repr

/-- `Promise.all` over the two concurrent backend calls: fulfils with the
pair when both fulfil, rejects when either rejects.  (When both reject, the
real JS value is whichever rejection settles first; the model picks the
user call's — none of the proved properties depends on the tie-break.) -/
def promiseAll2 {α β : Type} (ra : Except FetchErr α) (rb : Except FetchErr β) :
    Except FetchErr (α × β) :=
  match ra, rb with
  | Except.ok a, Except.ok b => Except.ok (a, b)
  | Except.error e, _ => Except.error e
  | Except.ok _, Except.error e => Except.error e

/-- One invocation of `loadUser` (the UserProvider), given the settlements of
the two concurrent calls.  Reads the token; returns early when absent.  With
both results, merges the payment methods onto the user record, publishes via
`setUser`, and reschedules.  In the catch: a `BackendError` with HTTP status
401 (httpStatus.UNAUTHORIZED) removes the access token and sets the stack
root to the SignIn screen; any other error is logged.  No branch of the
catch reschedules. -/
def loadUser (userRes : Except FetchErr User) (pmRes : Except FetchErr (List PaymentMethod))
    (s : UserProviderState) : UserProviderState :=
  match s.sessionToken with
  | none => s
  | some _ =>
    match promiseAll2 userRes pmRes with
    | Except.ok (newUser, newPaymentMethods) =>
      { s with user := some { newUser with paymentMethods := newPaymentMethods },
               timersScheduled := s.timersScheduled + 1 }
    | Except.error e =>
      match e with
      | FetchErr.backend be =>
        if be.httpStatus = 401 then
          { s with sessionToken := none, navigatedTo := some "SignIn" }
        else
          { s with errorsLogged := s.errorsLogged + 1 }
      | FetchErr.other => { s with errorsLogged := s.errorsLogged + 1 }

/-- The race trace for claim C3: the mount tick starts a fetch; the view
unmounts while the fetch is in flight; the fetch then resolves successfully;
the timer it scheduled later fires. -/
def unmountRaceTrace : List ApprovalsFeedEv :=
  [ApprovalsFeedEv.tick,
   ApprovalsFeedEv.unmount,
   ApprovalsFeedEv.resolve (Except.ok [pendingApprovalEx]),
   ApprovalsFeedEv.tick]

/-- Claim C3 (code bug): on the race trace, the in-flight fetch's result IS
published to state after unmount (`setApprovals` runs once after the flag was
flipped), and further ticks ARE scheduled after unmount (once by the
resolution, once more by the post-unmount tick, whose reschedule sits outside
the guard) — contradicting the claim that after the flag flip no state
update and no reschedule occur. -/
theorem approvals_feed_unmount_race :
    (runApprovalsFeed (some "token") unmountRaceTrace).publishesAfterUnmount = 1
      ∧ (runApprovalsFeed (some "token") unmountRaceTrace).timersAfterUnmount = 2
      ∧ (runApprovalsFeed (some "token") unmountRaceTrace).approvals = [pendingApprovalEx] :=
  ⟨rfl, rfl, rfl⟩

/-- The failing-fetch trace for claim C4: the mount tick starts a fetch,
which rejects. -/
def failingFetchTrace : List ApprovalsFeedEv :=
  [ApprovalsFeedEv.tick, ApprovalsFeedEv.resolve (Except.error FetchErr.other)]

/-- Counterexample to claim C4: after a failed fetch on the approvals feed,
the error is logged but NO next tick is scheduled — the `setTimeout` sits in
the try block after the throwing await, so the error branch schedules
nothing and polling stops. -/
theorem approvals_feed_error_stops_polling_cex :
    (runApprovalsFeed (some "token") failingFetchTrace).errorsLogged = 1
      ∧ (runApprovalsFeed (some "token") failingFetchTrace).timersScheduled = 0 :=
  ⟨rfl, rfl⟩

/-- Claim C4 as amended: when a fetch invocation fails, the failure is
logged (or, on the user feed, routed to the 401 handler) and NO next tick is
scheduled: in all three feeds the error branch schedules nothing, so a
single failure permanently stops that feed's polling. -/
theorem fetch_failure_logs_and_stops (e : FetchErr) :
    (∀ s : ApprovalsFeedState, s.inFlight = true →
        approvalsFeedStep s (ApprovalsFeedEv.resolve (Except.error e))
          = { s with inFlight := false, errorsLogged := s.errorsLogged + 1 })
    ∧ (∀ s : TransactionsFeedState, s.inFlight = true →
        transactionsFeedStep s (TransactionsFeedEv.resolve (Except.error e))
          = { s with inFlight := false, errorsLogged := s.errorsLogged + 1 })
    ∧ (∀ (userRes : Except FetchErr User) (pmRes : Except FetchErr (List PaymentMethod))
          (s : UserProviderState),
        promiseAll2 userRes pmRes = Except.error e →
        (loadUser userRes pmRes s).timersScheduled = s.timersScheduled) := by
  refine ⟨?_, ?_, ?_⟩
  · intro s hs
    simp [approvalsFeedStep, hs]
  · intro s hs
    simp [transactionsFeedStep, hs]
  · intro userRes pmRes s hall
    cases htok : s.sessionToken with
    | none => simp [loadUser, htok]
    | some tok =>
      cases e with
      | backend be =>
        by_cases h401 : be.httpStatus = 401 <;>
          simp [loadUser, htok, hall, h401]
      | other => simp [loadUser, htok, hall]

/-- A concrete approvals-feed state with a fetch in flight, used to
instantiate the error-branch theorem. -/
def inFlightApprovalsStateEx : ApprovalsFeedState :=
  { approvalsFeedInit (some "token") with inFlight := true }

/-- Witness for the amended C4: applied to a concrete in-flight state and a
concrete error, the step only logs. -/
theorem fetch_failure_logs_and_stops_witness :
    approvalsFeedStep inFlightApprovalsStateEx
        (ApprovalsFeedEv.resolve (Except.error FetchErr.other))
      = { inFlightApprovalsStateEx with inFlight := false, errorsLogged := 1 } :=
  (fetch_failure_logs_and_stops FetchErr.other).1 inFlightApprovalsStateEx rfl

/-- Claim C5: the user refresh is all-or-nothing — if either of the two
concurrent calls fails, the published user state is unchanged (in
particular a successful user fetch is not applied when the payment-methods
fetch fails); only when both succeed (and a token is present) is the merged
record published. -/
theorem loadUser_all_or_nothing (userRes : Except FetchErr User)
    (pmRes : Except FetchErr (List PaymentMethod)) (s : UserProviderState) :
    (((∃ e, userRes = Except.error e) ∨ (∃ e, pmRes = Except.error e)) →
        (loadUser userRes pmRes s).user = s.user)
    ∧ (∀ (u : User) (pms : List PaymentMethod),
        userRes = Except.ok u → pmRes = Except.ok pms → s.sessionToken ≠ none →
        (loadUser userRes pmRes s).user = some { u with paymentMethods := pms }) := by
  constructor
  · intro hfail
    cases htok : s.sessionToken with
    | none => simp [loadUser, htok]
    | some tok =>
      rcases hfail with ⟨e, he⟩ | ⟨e, he⟩
      · cases e with
        | backend be =>
          by_cases h401 : be.httpStatus = 401 <;>
            simp [loadUser, htok, promiseAll2, he, h401]
        | other => simp [loadUser, htok, promiseAll2, he]
      · cases userRes with
        | error eu =>
          cases eu with
          | backend be =>
            by_cases h401 : be.httpStatus = 401 <;>
              simp [loadUser, htok, promiseAll2, he, h401]
          | other => simp [loadUser, htok, promiseAll2, he]
        | ok u =>
          cases e with
          | backend be =>
            by_cases h401 : be.httpStatus = 401 <;>
              simp [loadUser, htok, promiseAll2, he, h401]
          | other => simp [loadUser, htok, promiseAll2, he]
  · intro u pms hu hpm htok
    cases htoke : s.sessionToken with
    | none => exact absurd htoke htok
    | some tok => simp [loadUser, htoke, promiseAll2, hu, hpm]

/-- A sample user profile. -/
def approvedUserEx : User :=
  { first_name := "Sarah", last_name := "Lee", registration_status := "Approved",
    is_admin := false, paymentMethods := [] }

/-- A concrete UserProvider state holding a session token and no published
user. -/
def userProviderStateEx : UserProviderState :=
  { user := none, sessionToken := some "token", navigatedTo := none,
    timersScheduled := 0, errorsLogged := 0 }

/-- Witness for C5: with a successful user fetch and a failed payment-methods
fetch, the published user state is unchanged. -/
theorem loadUser_all_or_nothing_witness :
    (loadUser (Except.ok approvedUserEx) (Except.error FetchErr.other)
        userProviderStateEx).user = userProviderStateEx.user :=
  (loadUser_all_or_nothing (Except.ok approvedUserEx) (Except.error FetchErr.other)
      userProviderStateEx).1 (Or.inr ⟨FetchErr.other, rfl⟩)

/-- The 401 trace for claim C6: the approvals feed's fetch rejects with a
typed unauthorized error. -/
def unauthorizedApprovalsTrace : List ApprovalsFeedEv :=
  [ApprovalsFeedEv.tick,
   ApprovalsFeedEv.resolve
     (Except.error (FetchErr.backend { httpStatus := 401, message := "unauthorized" }))]

/-- Counterexample to claim C6: a 401 on the background approvals polling
path does NOT remove the session token and does NOT redirect to sign-in —
the catch block of `fetchApprovals` merely logs, so the claim's "holds for
any authenticated call, including the background approvals and transactions
polling paths" is false. -/
theorem approvals_feed_401_unhandled_cex :
    (runApprovalsFeed (some "token") unauthorizedApprovalsTrace).sessionToken = some "token"
      ∧ (runApprovalsFeed (some "token") unauthorizedApprovalsTrace).navigatedTo = none
      ∧ (runApprovalsFeed (some "token") unauthorizedApprovalsTrace).errorsLogged = 1 :=
  ⟨rfl, rfl, rfl⟩

/-- Claim C6 as amended: only the user-refresh path reacts to a 401 — there
`loadUser` removes the session token and sets the stack root to SignIn with
no other state mutation (no user publish, no log, no reschedule) — while the
approvals polling path never touches the session token or navigation on any
event (its catch only logs). -/
theorem unauthorized_handling (be : BackendError) :
    (∀ (userRes : Except FetchErr User) (pmRes : Except FetchErr (List PaymentMethod))
        (s : UserProviderState),
      s.sessionToken ≠ none →
      promiseAll2 userRes pmRes = Except.error (FetchErr.backend be) →
      be.httpStatus = 401 →
      loadUser userRes pmRes s = { s with sessionToken := none, navigatedTo := some "SignIn" })
    ∧ (∀ (s : ApprovalsFeedState) (ev : ApprovalsFeedEv),
        (approvalsFeedStep s ev).sessionToken = s.sessionToken
          ∧ (approvalsFeedStep s ev).navigatedTo = s.navigatedTo) := by
  constructor
  · intro userRes pmRes s htok hall h401
    cases htoke : s.sessionToken with
    | none => exact absurd htoke htok
    | some tok => simp [loadUser, htoke, hall, h401]
  · intro s ev
    cases ev with
    | tick =>
      by_cases h : s.refreshApprovals <;> simp [approvalsFeedStep, h]
    | resolve res =>
      cases res with
      | ok data =>
        by_cases h : s.inFlight <;> simp [approvalsFeedStep, h]
      | error e =>
        by_cases h : s.inFlight <;> simp [approvalsFeedStep, h]
    | unmount => simp [approvalsFeedStep]

/-- Witness for the amended C6: with a concrete 401 from the user fetch, the
provider clears the token and redirects, leaving everything else unchanged. -/
theorem unauthorized_handling_witness :
    loadUser
        (Except.error (FetchErr.backend { httpStatus := 401, message := "unauthorized" }))
        (Except.ok []) userProviderStateEx
      = { userProviderStateEx with sessionToken := none, navigatedTo := some "SignIn" } :=
  (unauthorized_handling { httpStatus := 401, message := "unauthorized" }).1
    (Except.error (FetchErr.backend { httpStatus := 401, message := "unauthorized" }))
    (Except.ok []) userProviderStateEx (by decide) rfl rfl

/-- A navigation decision produced by Home.tsx: a `<Redirect>` to the
verification flow or to a currency's detail view. -/
inductive RedirectTarget
  | verify
  | wallet (currency : String)
deriving DecidableEq, Repr

/-- Home.tsx lines 34-38: `user && [RegistrationStatus.Registered,
RegistrationStatus.Verified].includes(user.registration_status)`.  A missing
user is falsy. -/
def userVerificationRequired (user : Option User) : Bool :=
  match user with
  | none => false
  | some u => ["Registered", "Verified"].contains u.registration_status

/-- The redirect elements rendered by Home.tsx lines 150-156, in render
order: `{userVerificationRequired && <Redirect to="/verify" />}` followed by
`{!!activeCurrency && <Redirect to={"/wallet/" + activeCurrency} />}`. -/
def homeRedirects (user : Option User) (activeCurrency : Option String) :
    List RedirectTarget :=
  (if userVerificationRequired user then [RedirectTarget.verify] else [])
    ++ (match activeCurrency with
        | some c => [RedirectTarget.wallet c]
        | none => [])

/-- The effective navigation decision.  The two `<Redirect>`s in Home.tsx
are siblings in a fragment, not alternatives of a `<Switch>`: when both
conditions hold, react-router 5.1.2 mounts both in the same commit and each
performs its `history.replace` in mount order — verify first, then the
currency — so the LAST rendered redirect determines the final location.  The
decision is therefore the last element of the rendered redirect list (none
when no redirect is rendered). -/
def homeRedirect (user : Option User) (activeCurrency : Option String) :
    Option RedirectTarget :=
  (homeRedirects user activeCurrency).getLast?

/-- A sample user still in the Registered state. -/
def registeredUserEx : User :=
  { first_name := "Noor", last_name := "Patel", registration_status := "Registered",
    is_admin := false, paymentMethods := [] }

/-- Counterexample to claim C7: in the overlap case — a Registered user AND
a just-selected currency — the router does NOT decide redirect-to-verify:
both `<Redirect>`s are rendered and the currency redirect's later
`history.replace` wins, so the program lands on the currency detail view. -/
theorem home_router_overlap_cex :
    homeRedirect (some registeredUserEx) (some "XUS") = some (RedirectTarget.wallet "XUS")
      ∧ homeRedirect (some registeredUserEx) (some "XUS") ≠ some RedirectTarget.verify :=
  ⟨rfl, by decide⟩

/-- Claim C7 as amended: the derived-state router is a function of current
context state, but the precedence between the two rendered redirects is
LAST-match-wins — if a currency was just selected from the balances list,
the decision is that currency's detail view even when the user also requires
verification; otherwise, if the user exists with registration status
Registered or Verified, the decision is redirect-to-verification; otherwise
no redirect. -/
theorem home_router_rules (user : Option User) (activeCurrency : Option String) :
    (∀ c, activeCurrency = some c →
        homeRedirect user activeCurrency = some (RedirectTarget.wallet c))
    ∧ (activeCurrency = none → ∀ u, user = some u →
        (u.registration_status = "Registered" ∨ u.registration_status = "Verified") →
        homeRedirect user activeCurrency = some RedirectTarget.verify)
    ∧ (activeCurrency = none → userVerificationRequired user = false →
        homeRedirect user activeCurrency = none) := by
  refine ⟨?_, ?_, ?_⟩
  · intro c hc
    subst hc
    simp [homeRedirect, homeRedirects, List.getLast?_concat]
  · intro hc u hu hst
    subst hc
    subst hu
    rcases hst with h | h <;>
      simp [homeRedirect, homeRedirects, userVerificationRequired, h]
  · intro hc hreq
    subst hc
    simp [homeRedirect, homeRedirects, hreq]

/-- Witness for the amended C7: with no currency selected, a Registered user
is redirected to verification. -/
theorem home_router_rules_witness :
    homeRedirect (some registeredUserEx) none = some RedirectTarget.verify :=
  (home_router_rules (some registeredUserEx) none).2.1 rfl registeredUserEx rfl
    (Or.inl rfl)

/-- The page content Home.tsx selects (lines 60-124): the loader while no
user is fetched, the verifying message for any non-Approved user, the admin
home for Approved admins, and the main wallet content otherwise. -/
inductive HomePage
  | walletLoader
  | verifyingMessage
  | adminHome
  | wallet
deriving DecidableEq, Repr

/-- The `pageContent` cascade of Home.tsx. -/
def homePageContent (user : Option User) : HomePage :=
  match user with
  | none => HomePage.walletLoader
  | some u =>
    if u.registration_status ≠ "Approved" then HomePage.verifyingMessage
    else if u.is_admin then HomePage.adminHome
    else HomePage.wallet

/-- A sample user in the Verified state. -/
def verifiedUserEx : User :=
  { first_name := "Ann", last_name := "Wu", registration_status := "Verified",
    is_admin := false, paymentMethods := [] }

/-- Counterexample to claim C9: a Verified user is NOT redirected to the
verification flow when a currency selection is simultaneously pending — the
currency redirect, rendered after the verify redirect, performs the last
`history.replace` and wins — even though the verifying message is shown. -/
theorem home_page_redirect_overlap_cex :
    homePageContent (some verifiedUserEx) = HomePage.verifyingMessage
      ∧ homeRedirect (some verifiedUserEx) (some "XDX") ≠ some RedirectTarget.verify :=
  ⟨rfl, by decide⟩

/-- Claim C9 as amended: for every fetched user, the main wallet view (the
normal or admin wallet content) is shown exactly when the registration
status is "Approved"; any other status shows the verifying message instead;
and a user with status Registered or Verified is additionally redirected to
the verification flow when no currency selection is pending (a
simultaneously selected currency's redirect, rendered later, overrides
it). -/
theorem home_page_approved_gate (u : User) :
    ((homePageContent (some u) = HomePage.wallet
        ∨ homePageContent (some u) = HomePage.adminHome)
      ↔ u.registration_status = "Approved")
    ∧ (u.registration_status ≠ "Approved" →
        homePageContent (some u) = HomePage.verifyingMessage)
    ∧ ((u.registration_status = "Registered" ∨ u.registration_status = "Verified") →
        homePageContent (some u) = HomePage.verifyingMessage
          ∧ homeRedirect (some u) none = some RedirectTarget.verify) := by
  refine ⟨?_, ?_, ?_⟩
  · constructor
    · intro hpage
      by_contra hne
      rcases hpage with h | h <;> simp [homePageContent, hne] at h
    · intro happ
      by_cases hadm : u.is_admin
      · exact Or.inr (by simp [homePageContent, happ, hadm])
      · exact Or.inl (by simp [homePageContent, happ, hadm])
  · intro hne
    simp [homePageContent, hne]
  · intro hst
    constructor
    · rcases hst with h | h <;> simp [homePageContent, h]
    · rcases hst with h | h <;>
        simp [homeRedirect, homeRedirects, userVerificationRequired, h]

/-- Witness for the amended C9: a Verified user with no pending currency
selection sees the verifying message and is redirected to verification. -/
theorem home_page_approved_gate_witness :
    homePageContent (some verifiedUserEx) = HomePage.verifyingMessage
      ∧ homeRedirect (some verifiedUserEx) none = some RedirectTarget.verify :=
  (home_page_approved_gate verifiedUserEx).2.2 (Or.inr rfl)

/-- A balance entry: a currency code and an integer minor-unit amount
(interfaces/account `LibraCurrencyBalance`, as consumed by
TotalBalance.tsx). -/
structure LibraCurrencyBalance where
  currency : String
  balance : Int
deriving DecidableEq, Repr

/-- Modelled from the spec: `libraToFloat` (frontend/src/utils/
amount-precision.ts, not included in the sources) converts an integer
minor-unit amount to major units at the spec's 6-decimal minor-unit
precision.  The computation is carried out over the rationals. -/
def libraToFloat (amount : Int) : ℚ := (amount : ℚ) / 1000000

/-- The total-fiat-balance reduce of TotalBalance (both the web component,
TotalBalance.tsx lines 19-24, and the native one): starting from 0, add each
balance converted to major units times the exchange rate from that balance's
currency to the selected fiat currency. -/
def totalFiatBalance (rates : String → String → ℚ) (fiatCurrencyCode : String)
    (balances : List LibraCurrencyBalance) : ℚ :=
  balances.foldl
    (fun totalBalance currencyBalance =>
      totalBalance
        + libraToFloat currencyBalance.balance * rates currencyBalance.currency fiatCurrencyCode)
    0

/-- The spec's literal example rate table: XUS to USD at 1.00 (constant 1 on
every pair; only XUS/USD is consulted). -/
def specExampleRates : String → String → ℚ := fun _ _ => 1

/-- The spec's literal example balances: 500000 minor units of XUS. -/
def specExampleBalances : List LibraCurrencyBalance :=
  [{ currency := "XUS", balance := 500000 }]

/-- Counterexample to claim C8: on the spec's literal example the computed
total is NOT the spec's headline figure 5.00. -/
theorem totalFiatBalance_not_five :
    totalFiatBalance specExampleRates "USD" specExampleBalances ≠ 5 := by
  norm_num [totalFiatBalance, specExampleBalances, specExampleRates, libraToFloat]

/-- Claim C8 as amended: on the spec's literal example — balances
[(XUS, 500000)], rate XUS to USD 1.00, 6-decimal minor-unit precision — the
total fiat balance computes to 0.50, matching the spec's own expansion
(500000 minor units, 0.5 major units, 0.50 dollars) and not the headline
figure 5.00. -/
theorem totalFiatBalance_spec_example :
    totalFiatBalance specExampleRates "USD" specExampleBalances = 1 / 2 := by
  norm_num [totalFiatBalance, specExampleBalances, specExampleRates, libraToFloat]

end Wallet
